import Mathlib

/-!
Verification of the cordis lifecycle/dependency kernel.

Shallow embedding of the event bus (src/lifecycle.ts), the plugin registry
(packages/core/src/registry.ts together with the utils it uses), and a
spec-derived model of the service table and effect-scope reactivity (the
files context.ts and scope.ts are not part of the inspected sources, so
that part is modelled from the specification text).

JavaScript values relevant to dispatch results are modelled by the
inductive type Value; machine references are modelled by natural-number
identities; fallible code returns Except or an explicit error component.
-/

/-- A JavaScript value as far as dispatch-result decisions are concerned:
undefined, null, booleans, and (other) values represented by a numeric tag. -/
inductive Value where
  | undef
  | null
  | bool (b : Bool)
  | num (n : Nat)
  deriving DecidableEq, Repr

/-- Translation of isBailed (lifecycle.ts line 9): a result is bailed when it
is neither null nor false nor undefined. -/
def isBailed : Value → Bool
  | Value.null => false
  | Value.bool false => false
  | Value.undef => false
  | _ => true

/-- A registered listener. The field id is the identity of the callback
function; spawns lists the tasks this callback enqueues on the bus task
queue when it is invoked (modelling the fire-and-forget work a ready
callback may itself schedule, transitively, as a finite tree). -/
inductive Listener where
  | mk (id : Nat) (spawns : List Listener)

/-- Identity of the callback function of a listener. -/
def Listener.id : Listener → Nat
  | Listener.mk i _ => i

/-- Tasks enqueued when the listener is invoked. -/
def Listener.spawns : Listener → List Listener
  | Listener.mk _ s => s

mutual

/-- Size of one listener tree, used as a termination measure for queue
draining. -/
def listenerSize : Listener → Nat
  | Listener.mk _ s => 1 + listenerListSize s

/-- Total size of a list of listener trees. -/
def listenerListSize : List Listener → Nat
  | [] => 0
  | t :: rest => listenerSize t + listenerListSize rest

end

mutual

/-- All callback identities contained in a listener tree: its own id plus
everything reachable through spawned tasks. -/
def Listener.allIds : Listener → List Nat
  | Listener.mk i s => i :: listenerListIds s

/-- All callback identities of a list of listener trees. -/
def listenerListIds : List Listener → List Nat
  | [] => []
  | t :: rest => t.allIds ++ listenerListIds rest

end

/-- An entry of a scope disposables list: either a listener stored directly
(the dispose special case of on) or the unregistration closure pushed by the
general branch of on. -/
inductive DEntry where
  | listener (l : Listener)
  | unhook (name : String) (id : Nat)

/-- The hook table: event name to ordered list of (owning context, listener)
pairs, as an association list mirroring the record _hooks. -/
abbrev HookTable := List (String × List (Nat × Listener))

/-- Reading _hooks[name] with the absent case giving the empty list
(the expression _hooks[name] or-else []). -/
def lookupHooks (hs : HookTable) (name : String) : List (Nat × Listener) :=
  match hs.lookup name with
  | some l => l
  | none => []

/-- Writing _hooks[name]: replace the entry for the name, or append a fresh
one (the or-assign followed by in-place mutation). -/
def setHooks (hs : HookTable) (name : String) (v : List (Nat × Listener)) : HookTable :=
  match hs with
  | [] => [(name, v)]
  | (n, l) :: rest => if n = name then (name, v) :: rest else (n, l) :: setHooks rest name v

/-- Deleting the entry for a name (the delete statement in start). -/
def removeHooks (hs : HookTable) (name : String) : HookTable :=
  hs.filter (fun p => !(p.1 == name))

/-- The array mutation selected by the prepend flag: unshift when true,
push when false (lifecycle.ts line 131). -/
def applyMethod (prepend : Bool) (x : α) (l : List α) : List α :=
  if prepend then x :: l else l ++ [x]

/-- Observable state of one Lifecycle instance: the isActive flag, the hook
table, the disposables list of the calling scope, the task queue, the count
of max-listener warnings logged, and the log of callback invocations. -/
structure BusState where
  isActive : Bool
  hooks : HookTable
  disposables : List DEntry
  tasks : List Listener
  warnings : Nat
  invoked : List Nat

/-- Translation of Lifecycle.on (lifecycle.ts lines 130 to 157).
maxListeners is the configured bound, caller the identity of the calling
context. A ready registration on an active bus defers the listener through
the task queue; a dispose registration goes to the caller disposables; every
other registration extends the hook table (warning first when the current
list has reached the bound) and pushes an unregistration closure onto the
caller disposables. No branch invokes the listener. -/
def Lifecycle.on (maxListeners : Nat) (caller : Nat) (st : BusState)
    (name : String) (l : Listener) (prepend : Bool) : BusState :=
  if name = "ready" ∧ st.isActive = true then
    { st with tasks := st.tasks ++ [l] }
  else if name = "dispose" then
    { st with disposables := applyMethod prepend (DEntry.listener l) st.disposables }
  else
    let hooks := lookupHooks st.hooks name
    let w := if maxListeners ≤ hooks.length then st.warnings + 1 else st.warnings
    { st with
      hooks := setHooks st.hooks name (applyMethod prepend (caller, l) hooks)
      warnings := w
      disposables := st.disposables ++ [DEntry.unhook name l.id] }

/-- Draining of the task queue (TaskQueue.flush, lifecycle.ts lines 25 to
29): repeatedly await the queued work; work settled may have enqueued more
work, which is drained as well. Returns the invocation log of the drain. -/
def flushQueue : List Listener → List Nat
  | [] => []
  | t :: rest => t.id :: flushQueue (rest ++ t.spawns)
termination_by q => listenerListSize q
decreasing_by
  simp only [listenerListSize, listenerSize]
  have h : ∀ (a b : List Listener), listenerListSize (a ++ b) = listenerListSize a + listenerListSize b := by
    intro a b
    induction a with
    | nil => simp [listenerListSize]
    | cons x xs ih => simp [listenerListSize, ih]; omega
  rw [h]
  cases t with
  | mk i s => simp [Listener.spawns, listenerSize]; omega

/-- Translation of Lifecycle.start (lifecycle.ts lines 182 to 190): set the
active flag, queue the result of invoking every ready hook (the callback
itself runs synchronously at queue time), delete the ready entry of the hook
table, then flush the task queue to completion. -/
def Lifecycle.start (st : BusState) : BusState :=
  let ready := (lookupHooks st.hooks "ready").map Prod.snd
  let queued := st.tasks ++ ready.flatMap Listener.spawns
  { st with
    isActive := true
    hooks := removeHooks st.hooks "ready"
    invoked := st.invoked ++ ready.map Listener.id ++ flushQueue queued
    tasks := [] }

/-- Outcome of invoking one hook callback: a returned value, a synchronous
throw (the exception escapes the expression callback.apply), or an
asynchronous rejection (the returned promise rejects). -/
inductive Outcome where
  | ok (v : Value)
  | syncThrow (e : Nat)
  | asyncReject (e : Nat)
  deriving DecidableEq, Repr

/-- Translation of the generator getHooks (lifecycle.ts lines 68 to 74):
take the hook list for the name (a slice, so a snapshot), keep the entries
whose owning context matches the session, and yield the callbacks. -/
def getHooks (hs : HookTable) (name : String) (matchFn : Nat → Bool) : List Listener :=
  ((lookupHooks hs name).filter (fun p => matchFn p.1)).map Prod.snd

/-- The loop body of Lifecycle.serial (lifecycle.ts lines 112 to 119) over an
already matched callback list: await each callback in order; a synchronous
throw propagates; the first bailed result is returned and ends the loop;
otherwise the loop falls through returning undefined. Also returns the list
of invoked callback identities in invocation order. -/
def serialRun (ret : Nat → Outcome) : List Listener → Except Nat Value × List Nat
  | [] => (Except.ok Value.undef, [])
  | l :: rest =>
    match ret l.id with
    | Outcome.syncThrow e => (Except.error e, [l.id])
    | Outcome.asyncReject e => (Except.error e, [l.id])
    | Outcome.ok v =>
      if isBailed v then (Except.ok v, [l.id])
      else
        let r := serialRun ret rest
        (r.1, l.id :: r.2)

/-- The loop body of Lifecycle.bail (lifecycle.ts lines 121 to 128): the
synchronous variant of serialRun, identical decision structure (a rejection
of a synchronous callback is its thrown exception). -/
def bailRun (ret : Nat → Outcome) : List Listener → Except Nat Value × List Nat
  | [] => (Except.ok Value.undef, [])
  | l :: rest =>
    match ret l.id with
    | Outcome.syncThrow e => (Except.error e, [l.id])
    | Outcome.asyncReject e => (Except.error e, [l.id])
    | Outcome.ok v =>
      if isBailed v then (Except.ok v, [l.id])
      else
        let r := bailRun ret rest
        (r.1, l.id :: r.2)

/-- Lifecycle.serial composed with getHooks. -/
def Lifecycle.serial (ret : Nat → Outcome) (hs : HookTable) (name : String)
    (matchFn : Nat → Bool) : Except Nat Value × List Nat :=
  serialRun ret (getHooks hs name matchFn)

/-- Lifecycle.bail composed with getHooks. -/
def Lifecycle.bail (ret : Nat → Outcome) (hs : HookTable) (name : String)
    (matchFn : Nat → Bool) : Except Nat Value × List Nat :=
  bailRun ret (getHooks hs name matchFn)

/-- The warning a task produces: the catch handler attached to each task
turns an asynchronous rejection into a logged warning; a returned value
produces none. -/
def taskWarning : Outcome → Option Nat
  | Outcome.asyncReject e => some e
  | _ => none

/-- The loop of Lifecycle.parallel (lifecycle.ts lines 76 to 86) over an
already matched callback list. Each iteration evaluates callback.apply
synchronously: a synchronous throw escapes the loop and rejects the dispatch
at once (no catch handler guards the synchronous call), skipping the
remaining callbacks; otherwise the settled task contributes its warning, and
after the loop all tasks are awaited. Result components: the rejection of
the dispatch promise if any, the invoked callback identities in order, and
the warnings logged. -/
def parallelRun (ret : Nat → Outcome) : List Listener → Option Nat × List Nat × List Nat
  | [] => (none, [], [])
  | l :: rest =>
    match ret l.id with
    | Outcome.syncThrow e => (some e, [l.id], [])
    | o =>
      let r := parallelRun ret rest
      (r.1, l.id :: r.2.1, (taskWarning o).toList ++ r.2.2)

/-- Lifecycle.parallel composed with getHooks. -/
def Lifecycle.parallel (ret : Nat → Outcome) (hs : HookTable) (name : String)
    (matchFn : Nat → Bool) : Option Nat × List Nat × List Nat :=
  parallelRun ret (getHooks hs name matchFn)

/-- The loop of Lifecycle.waterfall (lifecycle.ts lines 92 to 100) over an
already matched callback list: each awaited result replaces the first
argument fed to the next callback; the final first argument is returned.
Also returns the invoked identities. -/
def waterfallRun (ret : Nat → Value → Value) : List Listener → Value → Value × List Nat
  | [], v => (v, [])
  | l :: rest, v =>
    let r := waterfallRun ret rest (ret l.id v)
    (r.1, l.id :: r.2)

/-- The loop of Lifecycle.chain (lifecycle.ts lines 102 to 110): the
synchronous variant of waterfallRun, identical structure. -/
def chainRun (ret : Nat → Value → Value) : List Listener → Value → Value × List Nat
  | [], v => (v, [])
  | l :: rest, v =>
    let r := chainRun ret rest (ret l.id v)
    (r.1, l.id :: r.2)

/-- The serial loop with the hook-table mutations a callback performs
threaded through (a callback may register or remove listeners while the
dispatch is in flight). eff gives the table mutation of each callback, ret
its returned value. The callback list is the snapshot produced by getHooks
before the loop began. -/
def serialMutGo (ret : Nat → Value) (eff : Nat → HookTable → HookTable) :
    List Listener → HookTable → HookTable × List Nat
  | [], hs => (hs, [])
  | l :: rest, hs =>
    let hs1 := eff l.id hs
    if isBailed (ret l.id) then (hs1, [l.id])
    else
      let r := serialMutGo ret eff rest hs1
      (r.1, l.id :: r.2)

/-- Lifecycle.serial with callback mutations threaded: the iterated list is
the slice of the hook list taken when the dispatch begins. -/
def Lifecycle.serialMut (ret : Nat → Value) (eff : Nat → HookTable → HookTable)
    (hs : HookTable) (name : String) (matchFn : Nat → Bool) : HookTable × List Nat :=
  serialMutGo ret eff (getHooks hs name matchFn) hs

/-- The bail loop with callback mutations threaded (same decision structure
as serialMutGo, translated from the synchronous variant). -/
def bailMutGo (ret : Nat → Value) (eff : Nat → HookTable → HookTable) :
    List Listener → HookTable → HookTable × List Nat
  | [], hs => (hs, [])
  | l :: rest, hs =>
    let hs1 := eff l.id hs
    if isBailed (ret l.id) then (hs1, [l.id])
    else
      let r := bailMutGo ret eff rest hs1
      (r.1, l.id :: r.2)

/-- Lifecycle.bail with callback mutations threaded. -/
def Lifecycle.bailMut (ret : Nat → Value) (eff : Nat → HookTable → HookTable)
    (hs : HookTable) (name : String) (matchFn : Nat → Bool) : HookTable × List Nat :=
  bailMutGo ret eff (getHooks hs name matchFn) hs

/-- The parallel loop with callback mutations threaded: every snapshot entry
is invoked (task creation applies the callback). -/
def parallelMutGo (eff : Nat → HookTable → HookTable) :
    List Listener → HookTable → HookTable × List Nat
  | [], hs => (hs, [])
  | l :: rest, hs =>
    let r := parallelMutGo eff rest (eff l.id hs)
    (r.1, l.id :: r.2)

/-- Lifecycle.parallel with callback mutations threaded. -/
def Lifecycle.parallelMut (eff : Nat → HookTable → HookTable)
    (hs : HookTable) (name : String) (matchFn : Nat → Bool) : HookTable × List Nat :=
  parallelMutGo eff (getHooks hs name matchFn) hs

/-- The waterfall loop with callback mutations threaded: each result
replaces the argument fed to the next callback. -/
def waterfallMutGo (ret : Nat → Value → Value) (eff : Nat → HookTable → HookTable) :
    List Listener → HookTable → Value → HookTable × Value × List Nat
  | [], hs, v => (hs, v, [])
  | l :: rest, hs, v =>
    let r := waterfallMutGo ret eff rest (eff l.id hs) (ret l.id v)
    (r.1, r.2.1, l.id :: r.2.2)

/-- Lifecycle.waterfall with callback mutations threaded. -/
def Lifecycle.waterfallMut (ret : Nat → Value → Value) (eff : Nat → HookTable → HookTable)
    (hs : HookTable) (name : String) (matchFn : Nat → Bool) (v : Value) :
    HookTable × Value × List Nat :=
  waterfallMutGo ret eff (getHooks hs name matchFn) hs v

/-- The chain loop with callback mutations threaded (synchronous variant of
waterfallMutGo, identical structure). -/
def chainMutGo (ret : Nat → Value → Value) (eff : Nat → HookTable → HookTable) :
    List Listener → HookTable → Value → HookTable × Value × List Nat
  | [], hs, v => (hs, v, [])
  | l :: rest, hs, v =>
    let r := chainMutGo ret eff rest (eff l.id hs) (ret l.id v)
    (r.1, r.2.1, l.id :: r.2.2)

/-- Lifecycle.chain with callback mutations threaded. -/
def Lifecycle.chainMut (ret : Nat → Value → Value) (eff : Nat → HookTable → HookTable)
    (hs : HookTable) (name : String) (matchFn : Nat → Bool) (v : Value) :
    HookTable × Value × List Nat :=
  chainMutGo ret eff (getHooks hs name matchFn) hs v

/-- A plugin reference as the registry sees it. JavaScript classes are
functions, so the func constructor covers plain functions, classes and any
other callable; applyId records the identity of an own apply method when the
value carries one as a function. The obj constructor is a non-null
non-function object, again with the identity of its apply method when that
property is a function. prim covers every other value (null, numbers,
strings and the like). -/
inductive PluginRef where
  | func (id : Nat) (applyId : Option Nat)
  | obj (applyId : Option Nat)
  | prim
  deriving DecidableEq, Repr

/-- Translation of isApplicable (registry.ts lines 6 to 8): a truthy object
whose apply property is a function. -/
def isApplicable : PluginRef → Bool
  | PluginRef.obj (some _) => true
  | _ => false

/-- Translation of Registry.resolve (registry.ts lines 143 to 149) without
the assertion: a function resolves to itself, an applicable object to its
apply function, anything else to nothing. -/
def Registry.resolve : PluginRef → Option Nat
  | PluginRef.func i _ => some i
  | PluginRef.obj (some a) => some a
  | _ => none

/-- Registry.resolve with assert set: an unresolvable shape throws. -/
def Registry.resolveAssert (p : PluginRef) : Except String Nat :=
  match Registry.resolve p with
  | some k => Except.ok k
  | none => Except.error "invalid plugin, expect function or object with an apply method"

/-- A configuration value as far as the registry decisions depend on it:
nullish values, the empty object substituted for them, a truthy object
identified by a tag, and a falsy non-nullish primitive such as zero. -/
inductive Cfg where
  | undef
  | null
  | emptyObj
  | objVal (n : Nat)
  | zero
  deriving DecidableEq, Repr

/-- JavaScript truthiness of a Cfg value. -/
def Cfg.truthy : Cfg → Bool
  | Cfg.undef => false
  | Cfg.null => false
  | Cfg.zero => false
  | _ => true

/-- JavaScript nullishness of a Cfg value. -/
def Cfg.isNullish : Cfg → Bool
  | Cfg.undef => true
  | Cfg.null => true
  | _ => false

/-- The nullish-coalescing step of resolveConfig: config or-else the empty
object. -/
def orEmpty (c : Cfg) : Cfg :=
  if c.isNullish then Cfg.emptyObj else c

/-- The plugin attributes the registry consults: the reference itself, the
declared transform (the property Config or-else schema, when that
disjunction yields a function), and whether the property schema is literally
false (which disables the transform). -/
structure PluginAttrs where
  ref : PluginRef
  transform : Option (Cfg → Except Nat Cfg)
  schemaFalse : Bool

/-- Translation of resolveConfig (utils.ts): apply the declared transform
unless absent or disabled, then replace a nullish result by the empty
object; a throwing transform propagates its exception. -/
def resolveConfig (p : PluginAttrs) (config : Cfg) : Except Nat Cfg :=
  match p.transform with
  | some f =>
    if p.schemaFalse then Except.ok (orEmpty config)
    else
      match f config with
      | Except.ok c => Except.ok (orEmpty c)
      | Except.error e => Except.error e
  | none => Except.ok (orEmpty config)

/-- The registry metadata entry produced by Plugin.resolve (registry.ts
lines 95 to 102), restricted to the fields the claims consult. -/
structure Meta where
  plugin : PluginRef
  deriving DecidableEq, Repr

/-- Map.set on the internal plugin table: replace the value under an
existing key in place, otherwise append a fresh entry. -/
def mapSet (m : List (Nat × Meta)) (k : Nat) (v : Meta) : List (Nat × Meta) :=
  match m with
  | [] => [(k, v)]
  | (k1, v1) :: rest => if k1 = k then (k, v) :: rest else (k1, v1) :: mapSet rest k v

/-- Map.get on the internal plugin table. -/
def mapGet (m : List (Nat × Meta)) (k : Nat) : Option Meta :=
  m.lookup k

/-- Map.delete on the internal plugin table: the key is removed. -/
def mapDeleteKey (m : List (Nat × Meta)) (k : Nat) : List (Nat × Meta) :=
  m.filter (fun p => !(p.1 == k))

/-- An event the registry reports through the event bus; the plugin
operation emits internal/error on a config resolution failure. -/
inductive RegEvent where
  | internalError (e : Nat)
  deriving DecidableEq, Repr

/-- Observable registry state: the internal plugin table, the log of emitted
report events, and whether the scope of the owning context is active (the
assertion at the top of the plugin operation). -/
structure RegState where
  internal : List (Nat × Meta)
  events : List RegEvent
  ctxActive : Bool

/-- Status of an effect scope as far as the registry claims consult it. -/
inductive ScopeStatus where
  | cancelled
  | started
  deriving DecidableEq, Repr

/-- The effect scope record returned by the plugin operation. The state
effects of cancel and start on a freshly created scope are modelled from the
spec (scope.ts is not among the inspected sources): cancel attaches the
error and leaves the scope cancelled without ever starting it; start runs
the scope. -/
structure ScopeRec where
  status : ScopeStatus
  error : Option Nat
  startedEver : Bool
  deriving DecidableEq, Repr

/-- Translation of Registry.get (registry.ts lines 151 to 154). -/
def Registry.get (m : List (Nat × Meta)) (p : PluginRef) : Option Meta :=
  match Registry.resolve p with
  | some k => mapGet m k
  | none => none

/-- Translation of Registry.has (registry.ts lines 156 to 159). -/
def Registry.has (m : List (Nat × Meta)) (p : PluginRef) : Bool :=
  match Registry.resolve p with
  | some k => (mapGet m k).isSome
  | none => false

/-- Translation of Registry.delete (registry.ts lines 161 to 167): resolve
the reference, remove and return the metadata when present. -/
def Registry.delete (m : List (Nat × Meta)) (p : PluginRef) :
    List (Nat × Meta) × Option Meta :=
  match Registry.resolve p with
  | some k =>
    match mapGet m k with
    | some meta => (mapDeleteKey m k, some meta)
    | none => (m, none)
  | none => (m, none)

/-- Translation of Registry.plugin (registry.ts lines 193 to 232) called
from outside (the error parameter undefined). Resolve the shape (a failure
throws, leaving the state untouched), assert the calling scope active, then
try to resolve the config: a failure is emitted as internal/error, recorded,
and the config replaced by null. The metadata is stored under the canonical
key in every remaining case; the created scope is cancelled with the
recorded error when the final config is falsy and started otherwise. -/
def Registry.plugin (st : RegState) (p : PluginAttrs) (config : Cfg) :
    RegState × Except String ScopeRec :=
  match Registry.resolveAssert p.ref with
  | Except.error msg => (st, Except.error msg)
  | Except.ok key =>
    if st.ctxActive = false then (st, Except.error "inactive context") else
    let step :=
      match resolveConfig p config with
      | Except.ok c => (c, (none : Option Nat), ([] : List RegEvent))
      | Except.error reason => (Cfg.null, some reason, [RegEvent.internalError reason])
    let meta : Meta := { plugin := p.ref }
    let st1 : RegState :=
      { st with
        internal := mapSet st.internal key meta
        events := st.events ++ step.2.2 }
    let scope : ScopeRec :=
      if step.1.truthy = false then
        { status := ScopeStatus.cancelled, error := step.2.1, startedEver := false }
      else
        { status := ScopeStatus.started, error := none, startedEver := true }
    (st1, Except.ok scope)

/-- Modelled from the spec: the files context.ts and scope.ts (the service
setter on Context and the EffectScope reactivity) are not among the
inspected sources; this scope record follows sections 3, 4.1 and 4.2 of the
specification. A scope declares required and optionally watched service
names, carries its activity, the disposables registered since activation,
and the disposables its body registers when it runs. -/
structure SScope where
  id : Nat
  required : List String
  watched : List String
  isReactive : Bool
  active : Bool
  disposables : List Nat
  bodyDisposables : List Nat
  deriving DecidableEq, Repr

/-- Modelled from the spec: an externally visible step of a service write,
in the order the write performs them. -/
inductive SEvent where
  | runDisposable (scopeId : Nat) (d : Nat)
  | write (n : String) (v : Option Nat)
  | activate (scopeId : Nat)
  deriving DecidableEq, Repr

/-- Modelled from the spec: the shared service table (name to current
reference, absent meaning undefined or null) together with the installed
scopes. -/
structure SState where
  services : List (String × Nat)
  scopes : List SScope
  deriving DecidableEq, Repr

/-- Current reference stored under a service name. -/
def getService (svc : List (String × Nat)) (n : String) : Option Nat :=
  svc.lookup n

/-- Whether the scope dependency spec requires or optionally watches the
name (optional names count only for a reactive plugin, per section 3). -/
def dependsOn (s : SScope) (n : String) : Bool :=
  s.required.contains n || (s.isReactive && s.watched.contains n)

/-- Whether every required name currently has a value (section 3: a scope is
satisfiable iff every required name has a non-undefined value). -/
def satisfiedBy (svc : List (String × Nat)) (s : SScope) : Bool :=
  s.required.all (fun m => (getService svc m).isSome)

/-- Updating the service table entry for a name: deleting on a nullish
write, replacing or inserting otherwise. -/
def writeService (svc : List (String × Nat)) (n : String) : Option Nat → List (String × Nat)
  | none => svc.filter (fun p => !(p.1 == n))
  | some r =>
    match svc with
    | [] => [(n, r)]
    | (n1, r1) :: rest =>
      if n1 = n then (n, r) :: rest else (n1, r1) :: writeService rest n (some r)

/-- Modelled from the spec (section 4.2): cancelling a scope runs the
disposables registered since activation in reverse registration order and
returns the scope to the inactive state; an inactive scope is untouched. -/
def cancelScope (s : SScope) : SScope × List SEvent :=
  if s.active then
    ({ s with active := false, disposables := [] },
     s.disposables.reverse.map (SEvent.runDisposable s.id))
  else (s, [])

/-- Modelled from the spec (section 4.2): starting a scope activates it and
runs its body, which registers its disposables, provided it is inactive and
its required names are all available. -/
def startScope (svc : List (String × Nat)) (s : SScope) : SScope × List SEvent :=
  if !s.active && satisfiedBy svc s then
    ({ s with active := true, disposables := s.bodyDisposables }, [SEvent.activate s.id])
  else (s, [])

/-- Modelled from the spec (sections 4.1 and 8): writing a service value. A
reference-identical write is a no-op. Otherwise every scope depending on the
name is cancelled first, then the write takes effect, then every scope
depending on the name is re-evaluated and started when satisfiable. The
event list records the externally visible order. -/
def setService (st : SState) (n : String) (v : Option Nat) : SState × List SEvent :=
  if getService st.services n = v then (st, [])
  else
    let step1 := st.scopes.map (fun s => if dependsOn s n then cancelScope s else (s, []))
    let scopes1 := step1.map Prod.fst
    let evs1 := (step1.map Prod.snd).flatten
    let svc2 := writeService st.services n v
    let step2 := scopes1.map (fun s => if dependsOn s n then startScope svc2 s else (s, []))
    let scopes2 := step2.map Prod.fst
    let evs2 := (step2.map Prod.snd).flatten
    ({ services := svc2, scopes := scopes2 },
     evs1 ++ SEvent.write n v :: evs2)

/-- Three matching hooks under one event name, callback identities 1, 2, 3,
used as concrete dispatch inputs. -/
def exThree : List Listener := [Listener.mk 1 [], Listener.mk 2 [], Listener.mk 3 []]

/-- A hook table holding the three hooks of exThree under the name event. -/
def exTable : HookTable := [("event", [(0, Listener.mk 1 []), (0, Listener.mk 2 []), (0, Listener.mk 3 [])])]

/-- Hook results undefined, 5, 10 in registration order. -/
def exRetValues : Nat → Outcome := fun i =>
  if i = 1 then Outcome.ok Value.undef
  else if i = 2 then Outcome.ok (Value.num 5)
  else Outcome.ok (Value.num 10)

/-- Hook results where the second callback throws synchronously. -/
def exRetSync : Nat → Outcome := fun i =>
  if i = 2 then Outcome.syncThrow 99 else Outcome.ok Value.undef

/-- Hook results where the second callback rejects asynchronously. -/
def exRetAsync : Nat → Outcome := fun i =>
  if i = 2 then Outcome.asyncReject 99 else Outcome.ok Value.undef

/-- A config transform that always throws. -/
def exTransformThrow : Cfg → Except Nat Cfg := fun _ => Except.error 7

/-- A function plugin with identity 10 declaring the throwing transform. -/
def exAttrsThrow : PluginAttrs :=
  { ref := PluginRef.func 10 none, transform := some exTransformThrow, schemaFalse := false }

/-- A plugin value that is neither a function nor an object with an apply
method. -/
def exAttrsPrim : PluginAttrs :=
  { ref := PluginRef.prim, transform := none, schemaFalse := false }

/-- A function plugin with identity 3 and no transform. -/
def exAttrsFunc : PluginAttrs :=
  { ref := PluginRef.func 3 none, transform := none, schemaFalse := false }

/-- An empty registry with an active calling scope. -/
def exRegState : RegState := { internal := [], events := [], ctxActive := true }

/-- An inactive bus with empty tables. -/
def exBusInactive : BusState :=
  { isActive := false, hooks := [], disposables := [], tasks := [], warnings := 0, invoked := [] }

/-- An active bus with empty tables. -/
def exBusActive : BusState :=
  { isActive := true, hooks := [], disposables := [], tasks := [], warnings := 0, invoked := [] }

/-- A bus whose event entry already holds one hook, used against a
configured maximum of one listener. -/
def exBusFull : BusState :=
  { isActive := false, hooks := [("event", [(0, Listener.mk 1 [])])],
    disposables := [], tasks := [], warnings := 0, invoked := [] }

/-- A ready listener, identity 5, that enqueues one task with identity 6
which in turn enqueues one task with identity 7. -/
def exReadyListener : Listener := Listener.mk 5 [Listener.mk 6 [Listener.mk 7 []]]

/-- A service-model state: the name foo holds reference 1, and one active
scope (id 0) requires foo, with disposable 7 registered and a body that
registers disposable 8. -/
def exSState : SState :=
  { services := [("foo", 1)]
    scopes := [{ id := 0, required := ["foo"], watched := [], isReactive := false,
                 active := true, disposables := [7], bodyDisposables := [8] }] }

/-- Spec-side characterization for the snapshot claim: the callback
identities a serial or bail dispatch invokes, computed from the snapshot
list alone (every callback up to and including the first bailed one). -/
def bailIdsPure (ret : Nat → Value) : List Listener → List Nat
  | [] => []
  | l :: rest => if isBailed (ret l.id) then [l.id] else l.id :: bailIdsPure ret rest

theorem listenerListSize_append (a b : List Listener) :
    listenerListSize (a ++ b) = listenerListSize a + listenerListSize b := by
  induction a with
  | nil => simp [listenerListSize]
  | cons x xs ih => simp [listenerListSize, ih]; omega

theorem listenerListIds_append (a b : List Listener) :
    listenerListIds (a ++ b) = listenerListIds a ++ listenerListIds b := by
  induction a with
  | nil => simp [listenerListIds]
  | cons x xs ih => simp [listenerListIds, ih]

theorem mem_flushQueue (q : List Listener) (x : Nat) (hx : x ∈ listenerListIds q) :
    x ∈ flushQueue q := by
  match q with
  | [] => simp [listenerListIds] at hx
  | Listener.mk i s :: rest =>
    rw [flushQueue]
    simp only [listenerListIds, Listener.allIds, List.cons_append, List.mem_cons,
      List.mem_append] at hx
    simp only [Listener.id, Listener.spawns, List.mem_cons]
    rcases hx with rfl | hx | hx
    · exact Or.inl rfl
    · refine Or.inr (mem_flushQueue (rest ++ s) x ?_)
      rw [listenerListIds_append]
      exact List.mem_append_right _ hx
    · refine Or.inr (mem_flushQueue (rest ++ s) x ?_)
      rw [listenerListIds_append]
      exact List.mem_append_left _ hx
termination_by listenerListSize q
decreasing_by
  all_goals
    simp only [listenerListSize, listenerSize, listenerListSize_append]
    omega

theorem lookup_setHooks (hs : HookTable) (name n2 : String) (v : List (Nat × Listener)) :
    List.lookup n2 (setHooks hs name v) = if n2 = name then some v else List.lookup n2 hs := by
  induction hs with
  | nil =>
    by_cases h : n2 = name
    · simp [setHooks, List.lookup, h]
    · have hb : (n2 == name) = false := beq_false_of_ne h
      simp [setHooks, List.lookup, h, hb]
  | cons p rest ih =>
    obtain ⟨n, l⟩ := p
    by_cases hn : n = name
    · subst hn
      by_cases h2 : n2 = n
      · simp [setHooks, List.lookup, h2]
      · have hb : (n2 == n) = false := beq_false_of_ne h2
        simp [setHooks, List.lookup, h2, hb]
    · by_cases h2 : n2 = n
      · subst h2
        have hne : ¬ n2 = name := hn
        simp [setHooks, hn, List.lookup, hne]
      · have hb : (n2 == n) = false := beq_false_of_ne h2
        simp [setHooks, hn, List.lookup, h2, hb, ih]

theorem lookupHooks_setHooks (hs : HookTable) (name n2 : String) (v : List (Nat × Listener)) :
    lookupHooks (setHooks hs name v) n2 = if n2 = name then v else lookupHooks hs n2 := by
  unfold lookupHooks
  rw [lookup_setHooks]
  by_cases h : n2 = name <;> simp [h]

theorem bailRun_eq_serialRun (ret : Nat → Outcome) (hl : List Listener) :
    bailRun ret hl = serialRun ret hl := by
  induction hl with
  | nil => rfl
  | cons l rest ih =>
    simp only [bailRun, serialRun, ih]

theorem serialRun_unbailed (ret : Nat → Outcome) (hl : List Listener)
    (h : ∀ l ∈ hl, ∃ v, ret l.id = Outcome.ok v ∧ isBailed v = false) :
    serialRun ret hl = (Except.ok Value.undef, hl.map Listener.id) := by
  induction hl with
  | nil => rfl
  | cons l rest ih =>
    obtain ⟨v, hv, hb⟩ := h l (List.mem_cons_self l rest)
    rw [serialRun, hv]
    simp only [hb, ih (fun x hx => h x (List.mem_cons_of_mem l hx)), if_false,
      Bool.false_eq_true, List.map]

theorem serialRun_first_bailed (ret : Nat → Outcome) (pre : List Listener)
    (l : Listener) (post : List Listener) (w : Value)
    (hpre : ∀ x ∈ pre, ∃ v, ret x.id = Outcome.ok v ∧ isBailed v = false)
    (hl : ret l.id = Outcome.ok w) (hw : isBailed w = true) :
    serialRun ret (pre ++ l :: post) = (Except.ok w, pre.map Listener.id ++ [l.id]) := by
  induction pre with
  | nil =>
    rw [List.nil_append, serialRun, hl]
    simp [hw]
  | cons x rest ih =>
    obtain ⟨v, hv, hb⟩ := hpre x (List.mem_cons_self x rest)
    rw [List.cons_append, serialRun, hv]
    simp only [hb, Bool.false_eq_true, if_false,
      ih (fun y hy => hpre y (List.mem_cons_of_mem x hy)), List.map, List.cons_append]

theorem parallelRun_no_sync (ret : Nat → Outcome) (hl : List Listener)
    (h : ∀ l ∈ hl, ∀ e, ret l.id ≠ Outcome.syncThrow e) :
    parallelRun ret hl =
      (none, hl.map Listener.id, hl.filterMap (fun l => taskWarning (ret l.id))) := by
  induction hl with
  | nil => rfl
  | cons l rest ih =>
    have hrest := ih (fun x hx => h x (List.mem_cons_of_mem l hx))
    have hhead := h l (List.mem_cons_self l rest)
    rw [parallelRun]
    match hr : ret l.id with
    | Outcome.syncThrow e => exact absurd hr (hhead e)
    | Outcome.ok v =>
      simp only [hrest, List.map, List.filterMap, hr, taskWarning, Option.toList,
        List.nil_append]
    | Outcome.asyncReject e =>
      simp only [hrest, List.map, List.filterMap, hr, taskWarning, Option.toList,
        List.cons_append, List.nil_append]

theorem serialMutGo_spec (ret : Nat → Value) (eff : Nat → HookTable → HookTable)
    (hl : List Listener) (hs : HookTable) :
    serialMutGo ret eff hl hs =
      ((bailIdsPure ret hl).foldl (fun t i => eff i t) hs, bailIdsPure ret hl) := by
  induction hl generalizing hs with
  | nil => rfl
  | cons l rest ih =>
    rw [serialMutGo, bailIdsPure]
    by_cases hb : isBailed (ret l.id) = true
    · simp [hb, List.foldl]
    · simp only [Bool.not_eq_true] at hb
      simp [hb, ih, List.foldl]

theorem bailMutGo_eq_serialMutGo (ret : Nat → Value) (eff : Nat → HookTable → HookTable)
    (hl : List Listener) (hs : HookTable) :
    bailMutGo ret eff hl hs = serialMutGo ret eff hl hs := by
  induction hl generalizing hs with
  | nil => rfl
  | cons l rest ih =>
    rw [bailMutGo, serialMutGo]
    by_cases hb : isBailed (ret l.id) = true
    · simp [hb]
    · simp only [Bool.not_eq_true] at hb
      simp [hb, ih]

theorem parallelMutGo_spec (eff : Nat → HookTable → HookTable)
    (hl : List Listener) (hs : HookTable) :
    parallelMutGo eff hl hs =
      ((hl.map Listener.id).foldl (fun t i => eff i t) hs, hl.map Listener.id) := by
  induction hl generalizing hs with
  | nil => rfl
  | cons l rest ih =>
    rw [parallelMutGo]
    simp [ih, List.foldl]

theorem waterfallMutGo_spec (ret : Nat → Value → Value) (eff : Nat → HookTable → HookTable)
    (hl : List Listener) (hs : HookTable) (v : Value) :
    waterfallMutGo ret eff hl hs v =
      ((hl.map Listener.id).foldl (fun t i => eff i t) hs,
       (hl.map Listener.id).foldl (fun w i => ret i w) v,
       hl.map Listener.id) := by
  induction hl generalizing hs v with
  | nil => rfl
  | cons l rest ih =>
    rw [waterfallMutGo]
    simp [ih, List.foldl]

theorem chainMutGo_eq_waterfallMutGo (ret : Nat → Value → Value)
    (eff : Nat → HookTable → HookTable)
    (hl : List Listener) (hs : HookTable) (v : Value) :
    chainMutGo ret eff hl hs v = waterfallMutGo ret eff hl hs v := by
  induction hl generalizing hs v with
  | nil => rfl
  | cons l rest ih =>
    rw [chainMutGo, waterfallMutGo]
    simp [ih]

theorem mapGet_mapSet_self (m : List (Nat × Meta)) (k : Nat) (v : Meta) :
    mapGet (mapSet m k v) k = some v := by
  induction m with
  | nil => simp [mapSet, mapGet, List.lookup]
  | cons p rest ih =>
    obtain ⟨k1, v1⟩ := p
    by_cases h : k1 = k
    · simp [mapSet, h, mapGet, List.lookup]
    · have hb : (k == k1) = false := beq_false_of_ne (Ne.symm h)
      simpa [mapSet, h, mapGet, List.lookup, hb] using ih

theorem mapSet_keys_idem (m : List (Nat × Meta)) (k : Nat) (v1 v2 : Meta) :
    (mapSet (mapSet m k v1) k v2).map Prod.fst = (mapSet m k v1).map Prod.fst := by
  induction m with
  | nil => simp [mapSet]
  | cons p rest ih =>
    obtain ⟨k1, w⟩ := p
    by_cases h : k1 = k
    · simp [mapSet, h]
    · simp [mapSet, h, ih]

theorem mapGet_mapDeleteKey (m : List (Nat × Meta)) (k : Nat) :
    mapGet (mapDeleteKey m k) k = none := by
  induction m with
  | nil => simp [mapDeleteKey, mapGet, List.lookup]
  | cons p rest ih =>
    obtain ⟨k1, v1⟩ := p
    by_cases h : k1 = k
    · simpa [mapDeleteKey, mapGet, h] using ih
    · have hb : (k == k1) = false := beq_false_of_ne (Ne.symm h)
      simpa [mapDeleteKey, mapGet, List.lookup, h, hb, Ne.symm h] using ih

theorem flatten_map_split {α β : Type} (g : α → List β) (l : List α) (i : Nat)
    (hi : i < l.length) :
    ∃ pre post, (l.map g).flatten = pre ++ g (l.get ⟨i, hi⟩) ++ post := by
  induction l generalizing i with
  | nil => simp at hi
  | cons x rest ih =>
    match i with
    | 0 => exact ⟨[], (rest.map g).flatten, by simp⟩
    | Nat.succ j =>
      obtain ⟨pre, post, hsplit⟩ := ih j (by simpa using Nat.lt_of_succ_lt_succ hi)
      refine ⟨g x ++ pre, post, ?_⟩
      simp [hsplit]

theorem mem_listenerListIds_flatMap (L : List Listener) (b : Listener) (x : Nat)
    (hb : b ∈ L) (hx : x ∈ listenerListIds b.spawns) :
    x ∈ listenerListIds (L.flatMap Listener.spawns) := by
  induction L with
  | nil => simp at hb
  | cons a rest ih =>
    rw [List.flatMap_cons, listenerListIds_append]
    rcases List.mem_cons.mp hb with rfl | hb2
    · exact List.mem_append_left _ hx
    · exact List.mem_append_right _ (ih hb2)

theorem cancelScope_fst_active (s : SScope) : ((cancelScope s).1).active = false := by
  by_cases h : s.active = true
  · simp [cancelScope, h]
  · simp only [Bool.not_eq_true] at h
    simp [cancelScope, h]

theorem cancelScope_fst_fields (s : SScope) :
    ((cancelScope s).1).required = s.required ∧ ((cancelScope s).1).id = s.id := by
  by_cases h : s.active = true
  · simp [cancelScope, h]
  · simp only [Bool.not_eq_true] at h
    simp [cancelScope, h]

theorem cancelScope_snd (s : SScope) :
    (cancelScope s).2 =
      if s.active then s.disposables.reverse.map (SEvent.runDisposable s.id) else [] := by
  by_cases h : s.active = true
  · simp [cancelScope, h]
  · simp only [Bool.not_eq_true] at h
    simp [cancelScope, h]

theorem startScope_snd (svc : List (String × Nat)) (s : SScope) (h : s.active = false) :
    (startScope svc s).2 = if satisfiedBy svc s then [SEvent.activate s.id] else [] := by
  by_cases hs : satisfiedBy svc s = true
  · simp [startScope, h, hs]
  · simp only [Bool.not_eq_true] at hs
    simp [startScope, h, hs]

theorem startScope_fst_active (svc : List (String × Nat)) (s : SScope) (h : s.active = false) :
    ((startScope svc s).1).active = satisfiedBy svc s := by
  by_cases hs : satisfiedBy svc s = true
  · simp [startScope, h, hs]
  · simp only [Bool.not_eq_true] at hs
    simp [startScope, h, hs]

theorem satisfiedBy_congr (svc : List (String × Nat)) (s1 s2 : SScope)
    (h : s1.required = s2.required) : satisfiedBy svc s1 = satisfiedBy svc s2 := by
  simp [satisfiedBy, h]

theorem dependsOn_of_required (s : SScope) (n : String)
    (h : s.required.contains n = true) : dependsOn s n = true := by
  simp only [dependsOn, h, Bool.true_or]

theorem plugin_state_shape (st : RegState) (p : PluginAttrs) (c : Cfg) (k : Nat)
    (hres : Registry.resolve p.ref = some k) (hact : st.ctxActive = true) :
    (Registry.plugin st p c).1.internal = mapSet st.internal k { plugin := p.ref }
    ∧ (Registry.plugin st p c).1.ctxActive = st.ctxActive := by
  unfold Registry.plugin Registry.resolveAssert
  rw [hres]
  simp only [hact]
  cases resolveConfig p c <;> simp

/-- Claim C8: registering a listener for the event name dispose via on
appends (or, with prepend, prefixes) the listener to the calling scope
disposables list and leaves the general hook table unchanged for every event
name; no entry for dispose is ever added to the hook table by on. -/
theorem on_dispose_redirect (m c : Nat) (st : BusState) (l : Listener) (p : Bool) :
    (Lifecycle.on m c st "dispose" l p).hooks = st.hooks
    ∧ (Lifecycle.on m c st "dispose" l p).disposables
        = (if p then DEntry.listener l :: st.disposables
           else st.disposables ++ [DEntry.listener l])
    ∧ ∀ name : String,
        lookupHooks (Lifecycle.on m c st name l p).hooks "dispose"
          = lookupHooks st.hooks "dispose" := by
  have hdr : ¬ (("dispose" : String) = "ready" ∧ st.isActive = true) := by
    rintro ⟨h, -⟩
    exact absurd h (by decide)
  refine ⟨?_, ?_, ?_⟩
  · rw [Lifecycle.on, if_neg hdr, if_pos rfl]
  · rw [Lifecycle.on, if_neg hdr, if_pos rfl]
    rcases p with _ | _ <;> simp [applyMethod]
  · intro name
    rw [Lifecycle.on]
    by_cases h1 : name = "ready" ∧ st.isActive = true
    · rw [if_pos h1]
    · rw [if_neg h1]
      by_cases h2 : name = "dispose"
      · rw [if_pos h2]
      · rw [if_neg h2]
        simp only [lookupHooks_setHooks]
        rw [if_neg (fun h => h2 h.symm)]

/-- Claim C10: every dispatch strategy iterates over the snapshot of the
hook list taken when the dispatch begins: whatever listener registrations or
removals the running callbacks perform on the table (eff), the invoked
callbacks are exactly the ones determined by the hook list at dispatch
start, and the table mutations are carried into the resulting table (so
they affect later dispatches only). -/
theorem dispatch_snapshot_iteration (ret : Nat → Value) (retc : Nat → Value → Value)
    (eff : Nat → HookTable → HookTable) (hs : HookTable) (name : String)
    (matchFn : Nat → Bool) (v : Value) :
    (Lifecycle.serialMut ret eff hs name matchFn).2
        = bailIdsPure ret (getHooks hs name matchFn)
    ∧ (Lifecycle.bailMut ret eff hs name matchFn).2
        = bailIdsPure ret (getHooks hs name matchFn)
    ∧ (Lifecycle.parallelMut eff hs name matchFn).2
        = (getHooks hs name matchFn).map Listener.id
    ∧ (Lifecycle.waterfallMut retc eff hs name matchFn v).2.2
        = (getHooks hs name matchFn).map Listener.id
    ∧ (Lifecycle.chainMut retc eff hs name matchFn v).2.2
        = (getHooks hs name matchFn).map Listener.id
    ∧ (Lifecycle.serialMut ret eff hs name matchFn).1
        = (bailIdsPure ret (getHooks hs name matchFn)).foldl (fun t i => eff i t) hs
    ∧ (Lifecycle.parallelMut eff hs name matchFn).1
        = ((getHooks hs name matchFn).map Listener.id).foldl (fun t i => eff i t) hs := by
  refine ⟨?_, ?_, ?_, ?_, ?_, ?_, ?_⟩ <;>
    simp [Lifecycle.serialMut, Lifecycle.bailMut, Lifecycle.parallelMut,
      Lifecycle.waterfallMut, Lifecycle.chainMut, serialMutGo_spec,
      bailMutGo_eq_serialMutGo, parallelMutGo_spec, waterfallMutGo_spec,
      chainMutGo_eq_waterfallMutGo]

/-- Claim C5: a plugin value that is neither a function nor an object
exposing an apply function fails synchronously in Registry.plugin, leaving
the registry state untouched; every function and every object with an apply
function passes the shape validation. -/
theorem plugin_shape_validation (st : RegState) (p : PluginAttrs) (config : Cfg)
    (h : Registry.resolve p.ref = none) :
    (Registry.plugin st p config).1 = st
    ∧ (∃ msg, (Registry.plugin st p config).2 = Except.error msg)
    ∧ (∀ i a, Registry.resolveAssert (PluginRef.func i a) = Except.ok i)
    ∧ (∀ a, Registry.resolveAssert (PluginRef.obj (some a)) = Except.ok a) := by
  have hmsg : Registry.resolveAssert p.ref
      = Except.error "invalid plugin, expect function or object with an apply method" := by
    rw [Registry.resolveAssert, h]
  have hplug : Registry.plugin st p config
      = (st, Except.error "invalid plugin, expect function or object with an apply method") := by
    rw [Registry.plugin, hmsg]
  rw [hplug]
  exact ⟨rfl, ⟨_, rfl⟩, fun i a => rfl, fun a => rfl⟩

/-- Witness for C5 at the concrete inputs: a primitive plugin value fails
with the state unchanged, a bare function passes validation. -/
theorem plugin_shape_validation_witness :
    (Registry.plugin exRegState exAttrsPrim Cfg.undef).1 = exRegState
    ∧ (∃ msg, (Registry.plugin exRegState exAttrsPrim Cfg.undef).2 = Except.error msg)
    ∧ Registry.resolveAssert (PluginRef.func 0 none) = Except.ok 0
    ∧ Registry.resolveAssert (PluginRef.obj (some 4)) = Except.ok 4 := by
  have h := plugin_shape_validation exRegState exAttrsPrim Cfg.undef rfl
  exact ⟨h.1, h.2.1, h.2.2.1 0 none, h.2.2.2 4⟩

/-- Counterexample for C6: a class is a function at runtime, so a class
exposing an apply method (here a function with identity 0 whose own apply
property is the function with identity 1) resolves to itself, not to its
apply function as the claim states. -/
theorem registry_identity_cex :
    Registry.resolve (PluginRef.func 0 (some 1)) = some 0
    ∧ Registry.resolve (PluginRef.func 0 (some 1)) ≠ some 1 := by
  exact ⟨rfl, by decide⟩

/-- Claim C6 amended: get, has and delete resolve every plugin reference to
a canonical identity, where a bare function (a class included) is its own
identity and a non-function object exposing apply is identified by its apply
function; registering the same reference twice replaces the metadata under
one key without duplicating it, and after delete both has is false and get
gives nothing. -/
theorem registry_canonical_identity (st : RegState) (p : PluginAttrs) (c1 c2 : Cfg)
    (k : Nat) (hres : Registry.resolve p.ref = some k) (hact : st.ctxActive = true) :
    (∀ i a, Registry.resolve (PluginRef.func i a) = some i)
    ∧ (∀ a, Registry.resolve (PluginRef.obj (some a)) = some a)
    ∧ ((Registry.plugin (Registry.plugin st p c1).1 p c2).1.internal.map Prod.fst
        = (Registry.plugin st p c1).1.internal.map Prod.fst)
    ∧ Registry.get (Registry.plugin (Registry.plugin st p c1).1 p c2).1.internal p.ref
        = some { plugin := p.ref }
    ∧ (∀ m, Registry.has (Registry.delete m p.ref).1 p.ref = false
         ∧ Registry.get (Registry.delete m p.ref).1 p.ref = none) := by
  obtain ⟨hint1, hctx1⟩ := plugin_state_shape st p c1 k hres hact
  obtain ⟨hint2, -⟩ := plugin_state_shape (Registry.plugin st p c1).1 p c2 k hres
    (by rw [hctx1]; exact hact)
  refine ⟨fun i a => rfl, fun a => rfl, ?_, ?_, ?_⟩
  · rw [hint2, hint1, mapSet_keys_idem]
  · simp only [Registry.get, hres, hint2, hint1, mapGet_mapSet_self]
  · intro m
    match hg : mapGet m k with
    | some meta =>
      constructor
      · simp [Registry.has, Registry.delete, hres, hg, mapGet_mapDeleteKey]
      · simp [Registry.get, Registry.delete, hres, hg, mapGet_mapDeleteKey]
    | none =>
      constructor
      · simp [Registry.has, Registry.delete, hres, hg]
      · simp [Registry.get, Registry.delete, hres, hg]

/-- Witness for the amended C6 at concrete inputs: double registration of
the function plugin with identity 3 keeps one key, and delete removes it for
both has and get. -/
theorem registry_canonical_identity_witness :
    ((Registry.plugin (Registry.plugin exRegState exAttrsFunc Cfg.undef).1
        exAttrsFunc Cfg.undef).1.internal.map Prod.fst
      = (Registry.plugin exRegState exAttrsFunc Cfg.undef).1.internal.map Prod.fst)
    ∧ Registry.get (Registry.plugin (Registry.plugin exRegState exAttrsFunc Cfg.undef).1
        exAttrsFunc Cfg.undef).1.internal (PluginRef.func 3 none)
      = some { plugin := PluginRef.func 3 none }
    ∧ Registry.has (Registry.delete [(3, { plugin := PluginRef.func 3 none })]
        (PluginRef.func 3 none)).1 (PluginRef.func 3 none) = false
    ∧ Registry.get (Registry.delete [(3, { plugin := PluginRef.func 3 none })]
        (PluginRef.func 3 none)).1 (PluginRef.func 3 none) = none := by
  have h := registry_canonical_identity exRegState exAttrsFunc Cfg.undef Cfg.undef 3 rfl rfl
  have hd := h.2.2.2.2 [(3, { plugin := PluginRef.func 3 none })]
  exact ⟨h.2.2.1, h.2.2.2.1, hd.1, hd.2⟩

/-- Claim C4: a plugin whose declared config transform throws during
resolution does not propagate the error: the metadata is still stored, the
scope is cancelled with the error attached and never started, and the error
is reported through the internal error event. -/
theorem plugin_config_failure_captured (st : RegState) (p : PluginAttrs) (config : Cfg)
    (f : Cfg → Except Nat Cfg) (e k : Nat)
    (htr : p.transform = some f) (hsf : p.schemaFalse = false)
    (herr : f config = Except.error e)
    (hres : Registry.resolve p.ref = some k) (hact : st.ctxActive = true) :
    Registry.plugin st p config =
      ({ st with internal := mapSet st.internal k { plugin := p.ref },
                 events := st.events ++ [RegEvent.internalError e] },
       Except.ok { status := ScopeStatus.cancelled, error := some e, startedEver := false }) := by
  have hassert : Registry.resolveAssert p.ref = Except.ok k := by
    rw [Registry.resolveAssert, hres]
  have hrc : resolveConfig p config = Except.error e := by
    rw [resolveConfig, htr]
    simp [hsf, herr]
  rw [Registry.plugin, hassert]
  simp [hact, hrc, Cfg.truthy]

/-- Witness for C4 at the concrete inputs: the function plugin with identity
10 and the always-throwing transform. -/
theorem plugin_config_failure_captured_witness :
    Registry.plugin exRegState exAttrsThrow Cfg.undef =
      ({ internal := [(10, { plugin := PluginRef.func 10 none })],
         events := [RegEvent.internalError 7], ctxActive := true },
       Except.ok { status := ScopeStatus.cancelled, error := some 7, startedEver := false }) := by
  have h := plugin_config_failure_captured exRegState exAttrsThrow Cfg.undef
    exTransformThrow 7 10 rfl rfl rfl rfl rfl
  simpa [exRegState, mapSet] using h

/-- Claim C2: serial and bail dispatch invoke the matched hooks in
registration order and return the first result that is neither null nor
false nor undefined, invoking no hook after the one that produced it; when
no hook produces such a result the dispatch returns undefined after
invoking every hook. -/
theorem serial_bail_first_bailed (ret : Nat → Outcome) (hs : HookTable)
    (name : String) (matchFn : Nat → Bool) :
    ((∀ l ∈ getHooks hs name matchFn, ∃ v, ret l.id = Outcome.ok v ∧ isBailed v = false) →
        Lifecycle.serial ret hs name matchFn
            = (Except.ok Value.undef, (getHooks hs name matchFn).map Listener.id)
        ∧ Lifecycle.bail ret hs name matchFn
            = (Except.ok Value.undef, (getHooks hs name matchFn).map Listener.id))
    ∧ ∀ pre l post w, getHooks hs name matchFn = pre ++ l :: post →
        (∀ x ∈ pre, ∃ v, ret x.id = Outcome.ok v ∧ isBailed v = false) →
        ret l.id = Outcome.ok w → isBailed w = true →
        Lifecycle.serial ret hs name matchFn = (Except.ok w, pre.map Listener.id ++ [l.id])
        ∧ Lifecycle.bail ret hs name matchFn = (Except.ok w, pre.map Listener.id ++ [l.id]) := by
  constructor
  · intro h
    rw [Lifecycle.serial, Lifecycle.bail, bailRun_eq_serialRun, serialRun_unbailed _ _ h]
    exact ⟨rfl, rfl⟩
  · intro pre l post w hsplit hpre hl hw
    rw [Lifecycle.serial, Lifecycle.bail, bailRun_eq_serialRun, hsplit,
      serialRun_first_bailed ret pre l post w hpre hl hw]
    exact ⟨rfl, rfl⟩

/-- Witness for C2 at the concrete inputs: hooks returning undefined, 5, 10
in registration order give the result 5 with only the first two hooks
invoked (the invocation log is the identity list 1, 2, so the third hook is
never invoked). -/
theorem serial_bail_first_bailed_witness :
    Lifecycle.serial exRetValues exTable "event" (fun _ => true)
        = (Except.ok (Value.num 5), [1, 2])
    ∧ Lifecycle.bail exRetValues exTable "event" (fun _ => true)
        = (Except.ok (Value.num 5), [1, 2]) := by
  have h := (serial_bail_first_bailed exRetValues exTable "event" (fun _ => true)).2
    [Listener.mk 1 []] (Listener.mk 2 []) [Listener.mk 3 []] (Value.num 5)
    (by rfl)
    (by
      intro x hx
      rw [List.mem_singleton] at hx
      subst hx
      exact ⟨Value.undef, rfl, rfl⟩)
    rfl rfl
  simpa [Listener.id] using h

/-- Counterexample for C3: over three hooks where the second throws
synchronously, the expression callback.apply throws before any catch
handler is attached, so the dispatch rejects (the rejection component is 99,
not none), the third hook is never invoked, and no warning is logged —
contradicting the claim that every hook is still invoked, the error goes to
the warning channel and the call resolves. -/
theorem parallel_sync_throw_cex :
    parallelRun exRetSync exThree = (some 99, [1, 2], [])
    ∧ ¬ (3 ∈ (parallelRun exRetSync exThree).2.1)
    ∧ (parallelRun exRetSync exThree).1 ≠ none := by
  refine ⟨rfl, ?_, ?_⟩ <;> decide

/-- Claim C3 amended: parallel dispatch over any matched hook list whose
failures are asynchronous rejections invokes and awaits every hook, reports
each rejection through the warning channel, and resolves without rejecting;
only a synchronous throw escapes the loop (see the counterexample). -/
theorem parallel_failures_isolated (ret : Nat → Outcome) (hs : HookTable)
    (name : String) (matchFn : Nat → Bool)
    (h : ∀ l ∈ getHooks hs name matchFn, ∀ e, ret l.id ≠ Outcome.syncThrow e) :
    Lifecycle.parallel ret hs name matchFn =
      (none, (getHooks hs name matchFn).map Listener.id,
       (getHooks hs name matchFn).filterMap (fun l => taskWarning (ret l.id))) := by
  rw [Lifecycle.parallel, parallelRun_no_sync _ _ h]

/-- Witness for the amended C3 at the concrete inputs: three hooks where the
second rejects asynchronously; all three are invoked, the error 99 is the
logged warning, and the dispatch resolves. -/
theorem parallel_failures_isolated_witness :
    Lifecycle.parallel exRetAsync exTable "event" (fun _ => true)
      = (none, [1, 2, 3], [99]) := by
  have h := parallel_failures_isolated exRetAsync exTable "event" (fun _ => true)
    (by
      intro l hl e
      have hcases : l = Listener.mk 1 [] ∨ l = Listener.mk 2 [] ∨ l = Listener.mk 3 [] := by
        simpa [getHooks, exTable, lookupHooks, List.lookup] using hl
      rcases hcases with rfl | rfl | rfl <;> simp [exRetAsync, Listener.id])
  rw [h]
  rfl

/-- Claim C9: when on is called for an event name whose hook list already
holds at least the configured maximum listener count, a warning is logged
but the listener is still registered: the hook list then contains it and a
subsequent dispatch (parallel, hooks without synchronous throws) invokes
it. -/
theorem max_listener_warning_still_registers (maxL caller : Nat) (st : BusState)
    (name : String) (l : Listener) (p : Bool) (ret : Nat → Outcome) (matchFn : Nat → Bool)
    (hnr : ¬ (name = "ready" ∧ st.isActive = true))
    (hnd : ¬ (name = "dispose"))
    (hmax : maxL ≤ (lookupHooks st.hooks name).length)
    (hmatch : matchFn caller = true)
    (hns : ∀ i e, ret i ≠ Outcome.syncThrow e) :
    (Lifecycle.on maxL caller st name l p).warnings = st.warnings + 1
    ∧ (caller, l) ∈ lookupHooks (Lifecycle.on maxL caller st name l p).hooks name
    ∧ l.id ∈ (Lifecycle.parallel ret
        (Lifecycle.on maxL caller st name l p).hooks name matchFn).2.1 := by
  have hw : (Lifecycle.on maxL caller st name l p).warnings = st.warnings + 1 := by
    rw [Lifecycle.on, if_neg hnr, if_neg hnd]
    simp [hmax]
  have hhooks : (Lifecycle.on maxL caller st name l p).hooks
      = setHooks st.hooks name (applyMethod p (caller, l) (lookupHooks st.hooks name)) := by
    rw [Lifecycle.on, if_neg hnr, if_neg hnd]
  have hlk : lookupHooks (Lifecycle.on maxL caller st name l p).hooks name
      = applyMethod p (caller, l) (lookupHooks st.hooks name) := by
    rw [hhooks, lookupHooks_setHooks, if_pos rfl]
  have hmem : (caller, l) ∈ lookupHooks (Lifecycle.on maxL caller st name l p).hooks name := by
    rw [hlk]
    rcases p with _ | _ <;> simp [applyMethod]
  refine ⟨hw, hmem, ?_⟩
  have hget : l ∈ getHooks (Lifecycle.on maxL caller st name l p).hooks name matchFn := by
    rw [getHooks]
    exact List.mem_map_of_mem Prod.snd (List.mem_filter.mpr ⟨hmem, by simpa using hmatch⟩)
  have hpar := parallelRun_no_sync ret
    (getHooks (Lifecycle.on maxL caller st name l p).hooks name matchFn)
    (fun x _ e => hns x.id e)
  rw [Lifecycle.parallel, hpar]
  exact List.mem_map_of_mem Listener.id hget

/-- Witness for C9 at the concrete inputs: one hook already registered under
the name event against a configured maximum of one; the new listener with
identity 2 is still registered and invoked by a later parallel dispatch. -/
theorem max_listener_warning_still_registers_witness :
    (Lifecycle.on 1 0 exBusFull "event" (Listener.mk 2 []) false).warnings = 1
    ∧ (0, Listener.mk 2 []) ∈ lookupHooks
        (Lifecycle.on 1 0 exBusFull "event" (Listener.mk 2 []) false).hooks "event"
    ∧ 2 ∈ (Lifecycle.parallel exRetValues
        (Lifecycle.on 1 0 exBusFull "event" (Listener.mk 2 []) false).hooks
        "event" (fun _ => true)).2.1 := by
  have h := max_listener_warning_still_registers 1 0 exBusFull "event"
    (Listener.mk 2 []) false exRetValues (fun _ => true)
    (by
      rintro ⟨h1, -⟩
      exact absurd h1 (by decide))
    (by decide)
    (by
      show 1 ≤ (lookupHooks exBusFull.hooks "event").length
      simp [exBusFull, lookupHooks, List.lookup])
    rfl
    (by
      intro i e
      simp only [exRetValues]
      split_ifs <;> simp)
  refine ⟨?_, h.2.1, by simpa [Listener.id] using h.2.2⟩
  simpa [exBusFull] using h.1

/-- Claim C7: a ready listener registered before start is queued in the hook
table without being invoked and is invoked when start runs; a ready listener
registered while the bus is active is deferred through the task queue
without being invoked; and start returns only once the task queue is fully
drained, covering the ready callbacks and, transitively, every task their
invocations enqueue. -/
theorem ready_queueing_and_drain (maxL caller : Nat) (st : BusState) (l : Listener) (p : Bool) :
    (st.isActive = false →
        (Lifecycle.on maxL caller st "ready" l p).invoked = st.invoked
        ∧ (caller, l) ∈ lookupHooks (Lifecycle.on maxL caller st "ready" l p).hooks "ready"
        ∧ l.id ∈ (Lifecycle.start (Lifecycle.on maxL caller st "ready" l p)).invoked)
    ∧ (st.isActive = true →
        (Lifecycle.on maxL caller st "ready" l p).invoked = st.invoked
        ∧ (Lifecycle.on maxL caller st "ready" l p).tasks = st.tasks ++ [l]
        ∧ (Lifecycle.on maxL caller st "ready" l p).hooks = st.hooks)
    ∧ (∀ st2 : BusState,
        (Lifecycle.start st2).tasks = []
        ∧ (∀ x ∈ listenerListIds st2.tasks, x ∈ (Lifecycle.start st2).invoked)
        ∧ ∀ q ∈ lookupHooks st2.hooks "ready",
            q.2.id ∈ (Lifecycle.start st2).invoked
            ∧ ∀ x ∈ listenerListIds q.2.spawns, x ∈ (Lifecycle.start st2).invoked) := by
  refine ⟨?_, ?_, ?_⟩
  · intro hA
    have hnr : ¬ (("ready" : String) = "ready" ∧ st.isActive = true) := by
      rintro ⟨-, h⟩
      rw [hA] at h
      exact Bool.noConfusion h
    have hnd : ¬ (("ready" : String) = "dispose") := by decide
    have heq : Lifecycle.on maxL caller st "ready" l p
        = { st with
            hooks := setHooks st.hooks "ready"
              (applyMethod p (caller, l) (lookupHooks st.hooks "ready"))
            warnings := if maxL ≤ (lookupHooks st.hooks "ready").length
              then st.warnings + 1 else st.warnings
            disposables := st.disposables ++ [DEntry.unhook "ready" l.id] } := by
      rw [Lifecycle.on, if_neg hnr, if_neg hnd]
    have hmem : (caller, l) ∈ lookupHooks (Lifecycle.on maxL caller st "ready" l p).hooks "ready" := by
      rw [heq]
      show (caller, l) ∈ lookupHooks (setHooks st.hooks "ready" _) "ready"
      rw [lookupHooks_setHooks, if_pos rfl]
      rcases p with _ | _ <;> simp [applyMethod]
    refine ⟨by rw [heq], hmem, ?_⟩
    have hl : l ∈ (lookupHooks (Lifecycle.on maxL caller st "ready" l p).hooks "ready").map Prod.snd :=
      List.mem_map_of_mem Prod.snd hmem
    simp only [Lifecycle.start]
    exact List.mem_append_left _
      (List.mem_append_right _ (List.mem_map_of_mem Listener.id hl))
  · intro hA
    rw [Lifecycle.on, if_pos ⟨rfl, hA⟩]
    exact ⟨rfl, rfl, rfl⟩
  · intro st2
    refine ⟨rfl, ?_, ?_⟩
    · intro x hx
      simp only [Lifecycle.start]
      refine List.mem_append_right _ (mem_flushQueue _ x ?_)
      rw [listenerListIds_append]
      exact List.mem_append_left _ hx
    · intro q hq
      have hq2 : q.2 ∈ (lookupHooks st2.hooks "ready").map Prod.snd :=
        List.mem_map_of_mem Prod.snd hq
      constructor
      · simp only [Lifecycle.start]
        exact List.mem_append_left _
          (List.mem_append_right _ (List.mem_map_of_mem Listener.id hq2))
      · intro x hx
        simp only [Lifecycle.start]
        refine List.mem_append_right _ (mem_flushQueue _ x ?_)
        rw [listenerListIds_append]
        exact List.mem_append_right _ (mem_listenerListIds_flatMap _ q.2 x hq2 hx)

/-- Witness for C7 at the concrete inputs: registering the ready listener
with identity 5 (whose invocation enqueues a task 6 spawning a task 7) on
the inactive bus invokes nothing; start invokes it, drains the queue to
emptiness, and the transitively enqueued callback 7 is invoked before start
returns; on the active bus the registration only extends the task queue. -/
theorem ready_queueing_and_drain_witness :
    (Lifecycle.on 10 0 exBusInactive "ready" exReadyListener false).invoked = []
    ∧ 5 ∈ (Lifecycle.start (Lifecycle.on 10 0 exBusInactive "ready" exReadyListener false)).invoked
    ∧ (Lifecycle.on 10 0 exBusActive "ready" exReadyListener false).invoked = []
    ∧ (Lifecycle.on 10 0 exBusActive "ready" exReadyListener false).tasks = [exReadyListener]
    ∧ (Lifecycle.start (Lifecycle.on 10 0 exBusInactive "ready" exReadyListener false)).tasks = []
    ∧ 7 ∈ (Lifecycle.start (Lifecycle.on 10 0 exBusInactive "ready" exReadyListener false)).invoked := by
  have h1 := (ready_queueing_and_drain 10 0 exBusInactive exReadyListener false).1 rfl
  have h2 := (ready_queueing_and_drain 10 0 exBusActive exReadyListener false).2.1 rfl
  have h3 := (ready_queueing_and_drain 10 0 exBusInactive exReadyListener false).2.2
    (Lifecycle.on 10 0 exBusInactive "ready" exReadyListener false)
  refine ⟨by simpa [exBusInactive] using h1.1, ?_,
    by simpa [exBusActive] using h2.1,
    by simpa [exBusActive] using h2.2.1, h3.1, ?_⟩
  · simpa [exReadyListener, Listener.id] using h1.2.2
  · exact (h3.2.2 (0, exReadyListener) h1.2.1).2 7
      (by simp [exReadyListener, Listener.spawns, listenerListIds, Listener.allIds])

theorem cancelScope_fst_dependsOn (s : SScope) (n : String) :
    dependsOn ((cancelScope s).1) n = dependsOn s n := by
  by_cases h : s.active = true
  · simp [cancelScope, h, dependsOn]
  · simp only [Bool.not_eq_true] at h
    simp [cancelScope, h]

theorem cancelScope_fst_satisfiedBy (svc : List (String × Nat)) (s : SScope) :
    satisfiedBy svc ((cancelScope s).1) = satisfiedBy svc s := by
  by_cases h : s.active = true
  · simp [cancelScope, h, satisfiedBy]
  · simp only [Bool.not_eq_true] at h
    simp [cancelScope, h]

theorem startScope_fst_id (svc : List (String × Nat)) (s : SScope) :
    ((startScope svc s).1).id = s.id := by
  by_cases h : (!s.active && satisfiedBy svc s) = true
  · simp [startScope, h]
  · simp [startScope, h]

theorem setService_neq (st : SState) (n : String) (v : Option Nat)
    (hneq : getService st.services n ≠ v) :
    setService st n v =
      ({ services := writeService st.services n v
         scopes := ((((st.scopes.map
               (fun s => if dependsOn s n then cancelScope s else (s, []))).map
             Prod.fst).map
             (fun s => if dependsOn s n then startScope (writeService st.services n v) s
               else (s, []))).map Prod.fst) },
       ((st.scopes.map
           (fun s => if dependsOn s n then cancelScope s else (s, []))).map Prod.snd).flatten
       ++ SEvent.write n v ::
         ((((st.scopes.map
               (fun s => if dependsOn s n then cancelScope s else (s, []))).map
             Prod.fst).map
             (fun s => if dependsOn s n then startScope (writeService st.services n v) s
               else (s, []))).map Prod.snd).flatten) := by
  rw [setService, if_neg hneq]

theorem flatten_mapsnd_split (f : SScope → SScope × List SEvent) (l : List SScope)
    (i : Nat) (hi : i < l.length) :
    ∃ pre post, ((l.map f).map Prod.snd).flatten = pre ++ (f (l.get ⟨i, hi⟩)).2 ++ post := by
  rw [List.map_map]
  exact flatten_map_split (Prod.snd ∘ f) l i hi

theorem flatten_mapsnd_map_split (f1 f2 : SScope → SScope × List SEvent) (l : List SScope)
    (i : Nat) (hi : i < l.length) :
    ∃ pre post, ((((l.map f1).map Prod.fst).map f2).map Prod.snd).flatten
      = pre ++ (f2 ((f1 (l.get ⟨i, hi⟩)).1)).2 ++ post := by
  rw [List.map_map, List.map_map, List.map_map]
  exact flatten_map_split _ l i hi

theorem map_fst_map_map_get (f1 f2 : SScope → SScope × List SEvent) (l : List SScope)
    (i : Nat) (hi : i < l.length) :
    ((((l.map f1).map Prod.fst).map f2).map Prod.fst).get? i
      = some ((f2 ((f1 (l.get ⟨i, hi⟩)).1)).1) := by
  simp only [List.get?_eq_getElem?, List.getElem?_map, List.getElem?_eq_getElem hi,
    Option.map_some]
  rfl

/-- Claim C1 (against the spec model, context.ts and scope.ts not being
among the inspected sources): writing a reference-identical value to a
service name is a no-op that disposes and re-activates nothing; writing any
other value, when the name is required by the scope at position i, runs that
scope disposables (in reverse registration order, when it was active)
strictly before the write event, and after the write the scope is active
exactly when all its required names are satisfied, with the activation
event strictly after the write event. -/
theorem service_write_reactivity (st : SState) (n : String) (v : Option Nat) (i : Nat)
    (hi : i < st.scopes.length)
    (hneq : getService st.services n ≠ v)
    (hreq : (st.scopes.get ⟨i, hi⟩).required.contains n = true) :
    setService st n (getService st.services n) = (st, [])
    ∧ (∃ evs1 evs2,
        (setService st n v).2 = evs1 ++ SEvent.write n v :: evs2
        ∧ (∃ pre post, evs1 = pre ++
            (if (st.scopes.get ⟨i, hi⟩).active then
              (st.scopes.get ⟨i, hi⟩).disposables.reverse.map
                (SEvent.runDisposable (st.scopes.get ⟨i, hi⟩).id)
             else []) ++ post)
        ∧ (∃ pre2 post2, evs2 = pre2 ++
            (if satisfiedBy (writeService st.services n v) (st.scopes.get ⟨i, hi⟩) then
              [SEvent.activate (st.scopes.get ⟨i, hi⟩).id]
             else []) ++ post2))
    ∧ (∃ s2, (setService st n v).1.scopes.get? i = some s2
        ∧ s2.active = satisfiedBy (writeService st.services n v) (st.scopes.get ⟨i, hi⟩)
        ∧ s2.id = (st.scopes.get ⟨i, hi⟩).id) := by
  have hdep : dependsOn (st.scopes.get ⟨i, hi⟩) n = true := dependsOn_of_required _ _ hreq
  refine ⟨by simp [setService], ?_, ?_⟩
  · rw [setService_neq st n v hneq]
    refine ⟨_, _, rfl, ?_, ?_⟩
    · obtain ⟨pre, post, hsp⟩ := flatten_mapsnd_split
        (fun s => if dependsOn s n then cancelScope s else (s, [])) st.scopes i hi
      refine ⟨pre, post, ?_⟩
      rw [hsp]
      simp only [hdep, if_true]
      rw [cancelScope_snd]
    · obtain ⟨pre2, post2, hsp2⟩ := flatten_mapsnd_map_split
        (fun s => if dependsOn s n then cancelScope s else (s, []))
        (fun s => if dependsOn s n then startScope (writeService st.services n v) s
          else (s, []))
        st.scopes i hi
      refine ⟨pre2, post2, ?_⟩
      rw [hsp2]
      simp only [hdep, if_true, cancelScope_fst_dependsOn]
      rw [startScope_snd _ _ (cancelScope_fst_active _), cancelScope_fst_satisfiedBy,
        (cancelScope_fst_fields _).2]
  · rw [setService_neq st n v hneq]
    rw [map_fst_map_map_get
      (fun s => if dependsOn s n then cancelScope s else (s, []))
      (fun s => if dependsOn s n then startScope (writeService st.services n v) s
        else (s, []))
      st.scopes i hi]
    refine ⟨_, rfl, ?_, ?_⟩
    · simp only [hdep, if_true, cancelScope_fst_dependsOn]
      rw [startScope_fst_active _ _ (cancelScope_fst_active _), cancelScope_fst_satisfiedBy]
    · simp only [hdep, if_true, cancelScope_fst_dependsOn]
      rw [startScope_fst_id, (cancelScope_fst_fields _).2]

/-- Witness for C1 at the concrete inputs: on exSState, rewriting foo with
its current reference is a no-op, rewriting it with a fresh reference emits
the write event with the dispose work before it, and the scope ends
re-activated. -/
theorem service_write_reactivity_witness :
    setService exSState "foo" (some 1) = (exSState, [])
    ∧ (∃ evs1 evs2, (setService exSState "foo" (some 2)).2
        = evs1 ++ SEvent.write "foo" (some 2) :: evs2)
    ∧ (∃ s2, (setService exSState "foo" (some 2)).1.scopes.get? 0 = some s2
        ∧ s2.active = true ∧ s2.id = 0) := by
  have h := service_write_reactivity exSState "foo" (some 2) 0 (by decide)
    (by decide) (by decide)
  obtain ⟨hA, ⟨evs1, evs2, hsplit, -, -⟩, ⟨s2, hg, ha, hid⟩⟩ := h
  refine ⟨hA, ⟨evs1, evs2, hsplit⟩, ⟨s2, hg, ?_, hid⟩⟩
  rw [ha]
  decide
